import Mathlib

/-!
Verification of `src/assets/python-shim.py` (the Conduit Code-Mode SDK shim).

The shim defines two async adapters:

```
async def discover_mcp_tools(options=None):
    res = await discover_mcp_tools_js(options)
    if hasattr(res, 'to_py'):
        data = res.to_py()
        return data.get('tools', []) if isinstance(data, dict) else []
    return []

async def _internal_call_tool(name, arguments):
    res = await call_mcp_tool_js(name, arguments)
    if hasattr(res, 'to_py'):
        return res.to_py()
    return res
```

Embedding choices:
* `PyValue` models native Python data (what `to_py()` yields and what the
  shim manipulates).
* `HostResult` models the value an awaited host call resolves to: a Pyodide
  JS proxy carrying a `to_py` conversion (`HostResult.proxy v`, whose
  `to_py()` yields `v`), or a value without the `to_py` attribute
  (`HostResult.plain c`, with payload `c` standing for its raw content).
* the injected host globals `discover_mcp_tools_js` / `call_mcp_tool_js`
  are oracles passed as parameters; they either resolve to a `HostResult`
  or raise (`Except.error`), since the shim has no try/except.
* each shim function is given as the normalization of the awaited result
  (`discover_normalize`, `internal_call_normalize`, translated line by line
  from the source) wrapped by a run function that performs the single
  awaited host call and also records the argument list passed to the host,
  so that forwarding and call-count properties are statable.
-/

/-- Native Python values (the result of Pyodide `to_py()` conversion):
`None`, booleans, integers, strings, lists, and string-keyed dicts. -/
inductive PyValue where
  | none
  | bool (b : Bool)
  | int (n : Int)
  | str (s : String)
  | list (xs : List PyValue)
  | dict (entries : List (String × PyValue))
deriving Repr

/-- A value an awaited host call resolves to.  `proxy v` models an object
with a `to_py` attribute whose call yields the native value `v` (a Pyodide
JS proxy); `plain c` models an object without `to_py`, with `c` its raw
content. -/
inductive HostResult where
  | proxy (converted : PyValue)
  | plain (content : PyValue)
deriving Repr

/-- `hasattr(res, 'to_py')` from the source: true exactly on proxies. -/
def hasattr_to_py : HostResult → Bool
  | .proxy _ => true
  | .plain _ => false

/-- `res.to_py()` when the attribute exists: `some` of the converted value
on a proxy, `Option.none` when the attribute is absent. -/
def HostResult.to_py? : HostResult → Option PyValue
  | .proxy v => some v
  | .plain _ => Option.none

/-- Python `dict` key lookup on the entry list (keys of a Python dict are
unique; lookup returns the binding of the key when present). -/
def pyDictLookup (entries : List (String × PyValue)) (key : String) : Option PyValue :=
  (entries.find? (fun p => p.fst == key)).map Prod.snd

/-- Python `data.get(key, dflt)`: the value bound to `key`, else `dflt`. -/
def pyDictGet (entries : List (String × PyValue)) (key : String) (dflt : PyValue) : PyValue :=
  (pyDictLookup entries key).getD dflt

/-- Python `isinstance(data, dict)`. -/
def isDict : PyValue → Bool
  | .dict _ => true
  | _ => false

/-- Python `isinstance(v, list)`. -/
def isList : PyValue → Bool
  | .list _ => true
  | _ => false

/-- The body of `discover_mcp_tools` after `res = await
discover_mcp_tools_js(options)`, translated clause by clause:
the first two arms are `data.get('tools', []) if isinstance(data, dict)
else []` under `if hasattr(res, 'to_py')` (with `data = res.to_py()`),
the last arm is the trailing `return []`. -/
def discover_normalize : HostResult → PyValue
  | .proxy (.dict entries) => pyDictGet entries "tools" (.list [])
  | .proxy _ => .list []
  | .plain _ => .list []

/-- Return value of `_internal_call_tool`: either the native value produced
by `res.to_py()`, or the raw host result passed through unchanged. -/
inductive CallResult where
  | converted (v : PyValue)
  | passthrough (r : HostResult)
deriving Repr

/-- The body of `_internal_call_tool` after `res = await
call_mcp_tool_js(name, arguments)`: `return res.to_py()` when
`hasattr(res, 'to_py')`, else `return res`. -/
def internal_call_normalize (res : HostResult) : CallResult :=
  match res with
  | .proxy v => .converted v
  | .plain _ => .passthrough res

/-- One invocation of `async def discover_mcp_tools(options=None)`.  The
injected global `discover_mcp_tools_js` is the oracle `js`; it is awaited
once with `options` and may raise.  The second component records, in
order, every argument value passed to the host discovery call during the
invocation. -/
def discover_mcp_tools (js : PyValue → Except String HostResult)
    (options : PyValue) : Except String PyValue × List PyValue :=
  match js options with
  | .error e => (.error e, [options])
  | .ok res => (.ok (discover_normalize res), [options])

/-- `discover_mcp_tools` invoked with the `options` argument omitted: the
Python default is `options=None`. -/
def discover_mcp_tools_noargs (js : PyValue → Except String HostResult) :
    Except String PyValue × List PyValue :=
  discover_mcp_tools js .none

/-- One invocation of `async def _internal_call_tool(name, arguments)`.
The injected global `call_mcp_tool_js` is the oracle `js`; it is awaited
once with `name` and `arguments` and may raise.  The second component
records, in order, every `(name, arguments)` pair passed to the host
invocation call during the invocation. -/
def _internal_call_tool (js : PyValue → PyValue → Except String HostResult)
    (name arguments : PyValue) : Except String CallResult × List (PyValue × PyValue) :=
  match js name arguments with
  | .error e => (.error e, [(name, arguments)])
  | .ok res => (.ok (internal_call_normalize res), [(name, arguments)])

/-- C1: when the host discovery result has `to_py` and converts to a
mapping binding `"tools"` to a sequence, `discover_mcp_tools` returns
exactly that sequence, unchanged and in order. -/
theorem discover_returns_tools_list (js : PyValue → Except String HostResult)
    (options : PyValue) (entries : List (String × PyValue)) (ts : List PyValue)
    (hres : js options = .ok (.proxy (.dict entries)))
    (htools : pyDictLookup entries "tools" = some (.list ts)) :
    (discover_mcp_tools js options).fst = .ok (.list ts) := by
  simp [discover_mcp_tools, hres, discover_normalize, pyDictGet, htools]

/-- Witness for C1 at the spec scenario `to_py() = {"tools": ["a", "b"]}`. -/
theorem discover_returns_tools_list_witness :
    (discover_mcp_tools
        (fun _ => .ok (.proxy (.dict [("tools", .list [.str "a", .str "b"])])))
        .none).fst = .ok (.list [.str "a", .str "b"]) :=
  discover_returns_tools_list _ .none [("tools", .list [.str "a", .str "b"])]
    [.str "a", .str "b"] rfl rfl

/-- C2: when the host invocation result has `to_py`, `_internal_call_tool`
returns exactly the converted value, whatever its shape. -/
theorem call_tool_returns_converted (js : PyValue → PyValue → Except String HostResult)
    (name arguments v : PyValue)
    (hres : js name arguments = .ok (.proxy v)) :
    (_internal_call_tool js name arguments).fst = .ok (.converted v) := by
  simp [_internal_call_tool, hres, internal_call_normalize]

/-- Witness for C2 with a scalar conversion result. -/
theorem call_tool_returns_converted_witness :
    (_internal_call_tool (fun _ _ => .ok (.proxy (.int 7))) (.str "x") .none).fst
      = .ok (.converted (.int 7)) :=
  call_tool_returns_converted _ (.str "x") .none (.int 7) rfl

/-- C3: when the host discovery result lacks `to_py`, or converts to a
non-mapping, or converts to a mapping without a `"tools"` key,
`discover_mcp_tools` returns the empty sequence. -/
theorem discover_defaults_to_empty (js : PyValue → Except String HostResult)
    (options : PyValue) (res : HostResult)
    (hres : js options = .ok res)
    (h : res.to_py? = Option.none
        ∨ (∃ v, res.to_py? = some v ∧ isDict v = false)
        ∨ (∃ es, res.to_py? = some (.dict es) ∧ pyDictLookup es "tools" = Option.none)) :
    (discover_mcp_tools js options).fst = .ok (.list []) := by
  rcases res with v | c
  · rcases h with h | ⟨v2, hv2, hd⟩ | ⟨es, hes, hk⟩
    · simp [HostResult.to_py?] at h
    · simp [HostResult.to_py?] at hv2
      subst hv2
      cases v <;> simp_all [discover_mcp_tools, hres, discover_normalize, isDict]
    · simp [HostResult.to_py?] at hes
      subst hes
      simp [discover_mcp_tools, hres, discover_normalize, pyDictGet, hk]
  · simp [discover_mcp_tools, hres, discover_normalize]

/-- Witness for C3 at the spec scenario of a plain integer host result. -/
theorem discover_defaults_to_empty_witness :
    (discover_mcp_tools (fun _ => .ok (.plain (.int 5))) .none).fst = .ok (.list []) :=
  discover_defaults_to_empty _ .none (.plain (.int 5)) rfl (Or.inl rfl)

/-- C4: when the host invocation result lacks `to_py`,
`_internal_call_tool` returns the raw host result itself unchanged. -/
theorem call_tool_passthrough (js : PyValue → PyValue → Except String HostResult)
    (name arguments : PyValue) (res : HostResult)
    (hres : js name arguments = .ok res)
    (hno : res.to_py? = Option.none) :
    (_internal_call_tool js name arguments).fst = .ok (.passthrough res) := by
  rcases res with v | c
  · simp [HostResult.to_py?] at hno
  · simp [_internal_call_tool, hres, internal_call_normalize]

/-- Witness for C4 at the spec scenario of a plain string host result. -/
theorem call_tool_passthrough_witness :
    (_internal_call_tool (fun _ _ => .ok (.plain (.str "s"))) (.str "x") (.dict [])).fst
      = .ok (.passthrough (.plain (.str "s"))) :=
  call_tool_passthrough _ (.str "x") (.dict []) (.plain (.str "s")) rfl rfl

/-- C5: neither function catches or translates errors: an error raised by
the awaited host call propagates unmodified, and no normalized value is
returned. -/
theorem host_errors_propagate (djs : PyValue → Except String HostResult)
    (cjs : PyValue → PyValue → Except String HostResult)
    (options name arguments : PyValue) (e1 e2 : String)
    (hd : djs options = .error e1) (hc : cjs name arguments = .error e2) :
    (discover_mcp_tools djs options).fst = .error e1 ∧
      (_internal_call_tool cjs name arguments).fst = .error e2 := by
  constructor
  · simp [discover_mcp_tools, hd]
  · simp [_internal_call_tool, hc]

/-- Witness for C5 with two concrete raising hosts. -/
theorem host_errors_propagate_witness :
    (discover_mcp_tools (fun _ => .error "boom") .none).fst = .error "boom" ∧
      (_internal_call_tool (fun _ _ => .error "bang") (.str "x") .none).fst = .error "bang" :=
  host_errors_propagate _ _ .none (.str "x") .none "boom" "bang" rfl rfl

/-- C6 counterexample: when the converted mapping binds `"tools"` to a
non-sequence value, `discover_mcp_tools` returns that value as-is, not a
sequence — so its return value is not always a sequence. -/
theorem discover_nonlist_tools_counterexample :
    (discover_mcp_tools (fun _ => .ok (.proxy (.dict [("tools", .int 42)]))) .none).fst
        = .ok (.int 42) ∧
      isList (.int 42) = false :=
  ⟨rfl, rfl⟩

/-- C6 (amended): whenever a `"tools"` binding in the converted mapping is
a sequence (in particular when the key is absent, the conversion yields a
non-mapping, or the capability is missing), `discover_mcp_tools` returns a
sequence (possibly empty). -/
theorem discover_returns_list_unless_nonlist_tools
    (js : PyValue → Except String HostResult) (options : PyValue) (res : HostResult)
    (hres : js options = .ok res)
    (h : ∀ es v, res.to_py? = some (.dict es) → pyDictLookup es "tools" = some v →
        isList v = true) :
    ∃ xs, (discover_mcp_tools js options).fst = .ok (.list xs) := by
  rcases res with v | c
  · rcases v with _ | b | n | s | xs | es
    · exact ⟨[], by simp [discover_mcp_tools, hres, discover_normalize]⟩
    · exact ⟨[], by simp [discover_mcp_tools, hres, discover_normalize]⟩
    · exact ⟨[], by simp [discover_mcp_tools, hres, discover_normalize]⟩
    · exact ⟨[], by simp [discover_mcp_tools, hres, discover_normalize]⟩
    · exact ⟨[], by simp [discover_mcp_tools, hres, discover_normalize]⟩
    · rcases hk : pyDictLookup es "tools" with _ | v
      · exact ⟨[], by simp [discover_mcp_tools, hres, discover_normalize, pyDictGet, hk]⟩
      · have hv : isList v = true := h es v rfl hk
        rcases v with _ | b | n | s | xs | es2 <;> simp [isList] at hv
        exact ⟨xs, by simp [discover_mcp_tools, hres, discover_normalize, pyDictGet, hk]⟩
  · exact ⟨[], by simp [discover_mcp_tools, hres, discover_normalize]⟩

/-- Witness for the amended C6 at `to_py() = {}` (spec scenario). -/
theorem discover_returns_list_unless_nonlist_tools_witness :
    ∃ xs, (discover_mcp_tools (fun _ => .ok (.proxy (.dict []))) .none).fst
      = .ok (.list xs) :=
  discover_returns_list_unless_nonlist_tools _ .none (.proxy (.dict [])) rfl
    (by intro es v hes hv; simp [HostResult.to_py?] at hes; subst hes;
        simp [pyDictLookup] at hv)

/-- C7: `discover_mcp_tools` itself raises no error: whenever the awaited
host call resolves normally, every branch after it returns normally (the
dict access is guarded by the mapping check, so no lookup can fail). -/
theorem discover_total_after_host (js : PyValue → Except String HostResult)
    (options : PyValue) (res : HostResult)
    (hres : js options = .ok res) :
    ∃ v, (discover_mcp_tools js options).fst = .ok v :=
  ⟨discover_normalize res, by simp [discover_mcp_tools, hres]⟩

/-- Witness for C7 at a proxy converting to a non-mapping. -/
theorem discover_total_after_host_witness :
    ∃ v, (discover_mcp_tools (fun _ => .ok (.proxy (.str "odd"))) .none).fst = .ok v :=
  discover_total_after_host _ .none (.proxy (.str "odd")) rfl

/-- C8: inputs are forwarded unmodified and unvalidated: the host
discovery call receives exactly the given `options` (defaulting to `None`
when omitted), and the host invocation call receives exactly the given
`name` and `arguments`. -/
theorem inputs_forwarded_unmodified (djs : PyValue → Except String HostResult)
    (cjs : PyValue → PyValue → Except String HostResult)
    (options name arguments : PyValue) :
    (discover_mcp_tools djs options).snd = [options] ∧
      (_internal_call_tool cjs name arguments).snd = [(name, arguments)] ∧
      (discover_mcp_tools_noargs djs).snd = [PyValue.none] := by
  refine ⟨?_, ?_, ?_⟩
  · unfold discover_mcp_tools
    rcases djs options with e | res <;> rfl
  · unfold _internal_call_tool
    rcases cjs name arguments with e | res <;> rfl
  · unfold discover_mcp_tools_noargs discover_mcp_tools
    rcases djs PyValue.none with e | res <;> rfl

/-- C9: each invocation performs exactly one awaited host call — never
zero and never more than one. -/
theorem exactly_one_host_call (djs : PyValue → Except String HostResult)
    (cjs : PyValue → PyValue → Except String HostResult)
    (options name arguments : PyValue) :
    (discover_mcp_tools djs options).snd.length = 1 ∧
      (_internal_call_tool cjs name arguments).snd.length = 1 := by
  constructor
  · unfold discover_mcp_tools
    rcases djs options with e | res <;> rfl
  · unfold _internal_call_tool
    rcases cjs name arguments with e | res <;> rfl

/-- C10: both operations are deterministic functions of the host result
alone: if two invocations resolve to the same host value, they produce the
same output; `name` and `arguments` influence `_internal_call_tool` only
through what the host call returns. -/
theorem output_determined_by_host_result
    (djs1 djs2 : PyValue → Except String HostResult)
    (cjs1 cjs2 : PyValue → PyValue → Except String HostResult)
    (o1 o2 n1 a1 n2 a2 : PyValue)
    (hd : djs1 o1 = djs2 o2) (hc : cjs1 n1 a1 = cjs2 n2 a2) :
    (discover_mcp_tools djs1 o1).fst = (discover_mcp_tools djs2 o2).fst ∧
      (_internal_call_tool cjs1 n1 a1).fst = (_internal_call_tool cjs2 n2 a2).fst := by
  constructor
  · unfold discover_mcp_tools
    rw [hd]
    rcases djs2 o2 with e | res <;> rfl
  · unfold _internal_call_tool
    rw [hc]
    rcases cjs2 n2 a2 with e | res <;> rfl

/-- Witness for C10: different `name`/`arguments`/`options` with the same
resolved host value give the same outputs. -/
theorem output_determined_by_host_result_witness :
    (discover_mcp_tools (fun _ => .ok (.plain .none)) (.int 1)).fst
        = (discover_mcp_tools (fun _ => .ok (.plain .none)) (.int 2)).fst ∧
      (_internal_call_tool (fun _ _ => .ok (.proxy (.str "r"))) (.str "a") .none).fst
        = (_internal_call_tool (fun _ _ => .ok (.proxy (.str "r"))) (.str "b") (.int 3)).fst :=
  output_determined_by_host_result _ _ _ _ (.int 1) (.int 2) (.str "a") .none
    (.str "b") (.int 3) rfl rfl
